import Mathlib

/-!
Verification development for the MQTT client engine of the ESP-AT library
(`src/include/esp/apps/esp_mqtt_client.h`).  The header declares the data
model (request pool entries, client states, event types, configuration
constants); the engine behind it is specified by the accompanying design
document.  Enumerations and structures below are transcribed from the
header; the operational behaviour (request pool, QoS handshakes,
keep-alive scheduler, state gating) is modelled from the specification,
as the corresponding `.c` translation unit is not part of the sources.
Machine integers (`uint8_t`, `uint16_t`, `uint32_t`) are modelled as
`Nat` with explicit bounds where overflow matters; opaque `void*`
arguments are modelled as `Nat` tokens.
-/

namespace EspMqtt

/-- Default value of `ESP_CFG_MQTT_MAX_REQUESTS` from `esp_mqtt_client.h`:
maximal number of requests in use at a time. -/
def ESP_CFG_MQTT_MAX_REQUESTS : Nat := 8

/-- Transcribed from `esp_mqtt_qos_t` in `esp_mqtt_client.h`. -/
inductive esp_mqtt_qos_t where
  | ESP_MQTT_QOS_AT_MOST_ONCE
  | ESP_MQTT_QOS_AT_LEAST_ONCE
  | ESP_MQTT_QOS_EXACTLY_ONCE
deriving DecidableEq, Repr

/-- Transcribed from `esp_mqtt_state_t` in `esp_mqtt_client.h`. -/
inductive esp_mqtt_state_t where
  | ESP_MQTT_CONN_DISCONNECTED
  | ESP_MQTT_CONN_CONNECTING
  | ESP_MQTT_CONN_DISCONNECTING
  | ESP_MQTT_CONNECTING
  | ESP_MQTT_CONNECTED
deriving DecidableEq, Repr

/-- Transcribed from `esp_mqtt_conn_status_t` in `esp_mqtt_client.h`. -/
inductive esp_mqtt_conn_status_t where
  | ESP_MQTT_CONN_STATUS_ACCEPTED
  | ESP_MQTT_CONN_STATUS_REFUSED_PROTOCOL_VERSION
  | ESP_MQTT_CONN_STATUS_REFUSED_ID
  | ESP_MQTT_CONN_STATUS_REFUSED_SERVER
  | ESP_MQTT_CONN_STATUS_REFUSED_USER_PASS
  | ESP_MQTT_CONN_STATUS_REFUSED_NOT_AUTHORIZED
  | ESP_MQTT_CONN_STATUS_TCP_FAILED
deriving DecidableEq, Repr

/-- Modelled from the spec: result codes of the host stack (`espr_t` from
`esp/esp.h`, which is outside the MQTT sources); only the values the MQTT
engine is specified to return are modelled. -/
inductive espr_t where
  | espOK
  | espERR
  | espERRMEM
  | espTIMEOUT
  | espCLOSED
deriving DecidableEq, Repr

/-- Transcribed from `esp_mqtt_request_t` in `esp_mqtt_client.h`: entry
status flag (bit 0 = in use, bit 1 = pending acknowledgement), packet id,
user argument, number of bytes which must be confirmed sent, and the
timeout start time in milliseconds. -/
structure esp_mqtt_request_t where
  status : Nat
  packet_id : Nat
  arg : Nat
  expected_sent_len : Nat
  timeout_start_time : Nat
deriving DecidableEq, Repr

/-- Bit 0 of the status byte: entry is in use. -/
def request_is_in_use (r : esp_mqtt_request_t) : Bool :=
  r.status % 2 == 1

/-- Bit 1 of the status byte: entry is fully sent and waiting for its
acknowledgement. -/
def request_is_pending (r : esp_mqtt_request_t) : Bool :=
  r.status / 2 % 2 == 1

/-- Clearing the status flags releases the entry back to the pool. -/
def request_reset (r : esp_mqtt_request_t) : esp_mqtt_request_t :=
  { r with status := 0 }

/-- Marking an in-use entry pending once all its bytes were confirmed
sent on the transport. -/
def request_set_pending (r : esp_mqtt_request_t) : esp_mqtt_request_t :=
  { r with status := 3 }

/-- Modelled from the spec: the Request Pool, a fixed-capacity table of
in-flight transactions plus the monotonically increasing packet-id
counter used for allocation. -/
structure mqtt_pool where
  requests : List esp_mqtt_request_t
  last_packet_id : Nat
deriving DecidableEq, Repr

/-- Fresh pool: `ESP_CFG_MQTT_MAX_REQUESTS` free slots, counter at 0. -/
def mqtt_pool_init : mqtt_pool :=
  { requests := List.replicate ESP_CFG_MQTT_MAX_REQUESTS
      { status := 0, packet_id := 0, arg := 0, expected_sent_len := 0, timeout_start_time := 0 },
    last_packet_id := 0 }

/-- Packet identifiers of the requests currently in use. -/
def ids_in_use (rs : List esp_mqtt_request_t) : List Nat :=
  (rs.filter (fun r => request_is_in_use r)).map (fun r => r.packet_id)

/-- Modelled from the spec: successor of the wrapping 16-bit packet-id
counter, skipping 0. -/
def next_packet_id (i : Nat) : Nat :=
  if 65535 ≤ i then 1 else i + 1

/-- Modelled from the spec: probe successive counter values against the
identifiers currently in use until a free one is found; the fuel bounds
the walk around the 16-bit identifier space. -/
def probe_packet_id (rs : List esp_mqtt_request_t) : Nat → Nat → Option Nat
  | _, 0 => none
  | cand, fuel + 1 =>
      if cand ∈ ids_in_use rs then probe_packet_id rs (next_packet_id cand) fuel
      else some cand

/-- Modelled from the spec: allocate a fresh packet identifier from the
monotonically increasing counter, wrapping and skipping 0, probed against
the in-use identifiers. -/
def create_packet_id (pool : mqtt_pool) : Option Nat :=
  probe_packet_id pool.requests (next_packet_id pool.last_packet_id) 65536

/-- An in-use request entry as written at allocation time. -/
def mk_request (pid arg len now : Nat) : esp_mqtt_request_t :=
  { status := 1, packet_id := pid, arg := arg,
    expected_sent_len := len, timeout_start_time := now }

/-- Index of the first slot of the table that is not in use. -/
def find_free_slot : List esp_mqtt_request_t → Option Nat
  | [] => none
  | r :: rs =>
      if request_is_in_use r then (find_free_slot rs).map (fun i => i + 1)
      else some 0

/-- Modelled from the spec: `allocate(expected_send_len, arg)` — find a
free slot and a free packet identifier; fail fast (with nothing mutated)
when all slots are occupied. -/
def request_create (pool : mqtt_pool) (len arg now : Nat) : Option (Nat × mqtt_pool) :=
  match find_free_slot pool.requests with
  | none => none
  | some i =>
      match create_packet_id pool with
      | none => none
      | some pid =>
          some (pid,
            { requests := pool.requests.set i (mk_request pid arg len now),
              last_packet_id := pid })

/-- Modelled from the spec: `release(packet_id)` — clear the status flags
of the in-use entry carrying that identifier. -/
def request_delete (pool : mqtt_pool) (pid : Nat) : mqtt_pool :=
  { pool with
    requests := pool.requests.map
      (fun r => if request_is_in_use r && r.packet_id == pid then request_reset r else r) }

/-- An allocate or release call on the Request Pool. -/
inductive pool_op where
  | alloc (len arg now : Nat)
  | release (pid : Nat)
deriving DecidableEq, Repr

/-- One pool call; a failed allocation leaves the pool as it was. -/
def pool_step (pool : mqtt_pool) : pool_op → mqtt_pool
  | .alloc len arg now =>
      match request_create pool len arg now with
      | none => pool
      | some p => p.2
  | .release pid => request_delete pool pid

/-- A sequence of allocate/release calls starting from a given pool. -/
def pool_run (pool : mqtt_pool) (ops : List pool_op) : mqtt_pool :=
  ops.foldl pool_step pool

/-- Events surfaced by the Event Dispatcher, transcribed from
`esp_mqtt_evt_type_t` and the payload union `esp_mqtt_evt_t` in
`esp_mqtt_client.h` (the payload pointers are modelled as `Nat`
tokens). -/
inductive mqtt_evt where
  | evt_connect (status : esp_mqtt_conn_status_t)
  | evt_sub (arg : Nat) (res : espr_t)
  | evt_unsub (arg : Nat) (res : espr_t)
  | evt_publish (arg : Nat) (res : espr_t)
  | evt_publish_recv (topic : List Nat) (payload : List Nat) (dup : Nat) (qos : esp_mqtt_qos_t)
  | evt_disconnect (is_accepted : Bool)
  | evt_keep_alive
deriving DecidableEq, Repr

/-- Modelled from the spec: the fixed per-request timeout, in
milliseconds, against which `tick(now)` compares the elapsed time. -/
def mqtt_request_timeout : Nat := 10000

/-- An in-use request whose elapsed time `now - timeout_start_time` has
reached the fixed timeout. -/
def request_expired (now : Nat) (r : esp_mqtt_request_t) : Bool :=
  request_is_in_use r && decide (mqtt_request_timeout ≤ now - r.timeout_start_time)

/-- Modelled from the spec: the scan of `tick(now)` over the request
table — expired entries are released and a timeout result is reported
for each, other entries are left alone. -/
def mqtt_tick_scan (now : Nat) : List esp_mqtt_request_t → List esp_mqtt_request_t × List mqtt_evt
  | [] => ([], [])
  | r :: rs =>
      let p := mqtt_tick_scan now rs
      if request_expired now r then
        (request_reset r :: p.1, mqtt_evt.evt_publish r.arg espr_t.espTIMEOUT :: p.2)
      else
        (r :: p.1, p.2)

/-- Modelled from the spec: `tick(now)` on the Request Pool. -/
def mqtt_tick (pool : mqtt_pool) (now : Nat) : mqtt_pool × List mqtt_evt :=
  let p := mqtt_tick_scan now pool.requests
  ({ pool with requests := p.1 }, p.2)

/-- MQTT 3.1.1 control packet types, as routed by the engine. -/
inductive mqtt_packet_type where
  | CONNECT
  | CONNACK
  | PUBLISH
  | PUBACK
  | PUBREC
  | PUBREL
  | PUBCOMP
  | SUBSCRIBE
  | SUBACK
  | UNSUBSCRIBE
  | UNSUBACK
  | PINGREQ
  | PINGRESP
  | DISCONNECT
deriving DecidableEq, Repr

/-- Stage of the acknowledgement exchange of one outbound QoS2 publish:
after PUBLISH was sent the engine awaits PUBREC, after PUBREL was sent it
awaits PUBCOMP, and `done` marks the released, successfully completed
exchange. -/
inductive qos2_stage where
  | await_pubrec
  | await_pubcomp
  | done
deriving DecidableEq, Repr

/-- Modelled from the spec: one inbound packet for the identifier of an
outbound QoS2 publish.  On PUBREC the engine answers with PUBREL (same
identifier) and waits for PUBCOMP; on PUBCOMP in that second stage it
completes.  Any packet type not matching the pending stage is a protocol
error (`none`) that tears the session down. -/
def qos2_step : qos2_stage → mqtt_packet_type → Option (qos2_stage × List mqtt_packet_type)
  | .await_pubrec, .PUBREC => some (.await_pubcomp, [.PUBREL])
  | .await_pubcomp, .PUBCOMP => some (.done, [])
  | _, _ => none

/-- Feed a list of inbound packets through the QoS2 exchange, collecting
the packets the engine sends in response; `none` as soon as a protocol
error occurs. -/
def qos2_run : qos2_stage → List mqtt_packet_type → Option (qos2_stage × List mqtt_packet_type)
  | st, [] => some (st, [])
  | st, p :: ps =>
      match qos2_step st p with
      | none => none
      | some s =>
          match qos2_run s.1 ps with
          | none => none
          | some t => some (t.1, s.2 ++ t.2)

/-- Big-endian 16-bit integer, as two bytes. -/
def u16_be (n : Nat) : List Nat :=
  [n / 256 % 256, n % 256]

/-- Modelled from the spec: the MQTT variable-length-integer encoding of
the remaining length — 1 to 4 bytes, each carrying 7 bits of magnitude
plus a continuation bit; values of 2^28 and beyond cannot be encoded. -/
def encode_remaining_length (n : Nat) : Option (List Nat) :=
  if n < 128 then some [n]
  else if n < 16384 then some [n % 128 + 128, n / 128]
  else if n < 2097152 then some [n % 128 + 128, n / 128 % 128 + 128, n / 16384]
  else if n < 268435456 then
    some [n % 128 + 128, n / 128 % 128 + 128, n / 16384 % 128 + 128, n / 2097152]
  else none

/-- Helper of `decode_remaining_length`: the fuel starts at 4 so that
encodings longer than 4 bytes are rejected, per the spec. -/
def decode_rl_aux : List Nat → Nat → Nat → Nat → Option (Nat × List Nat)
  | _, _, _, 0 => none
  | [], _, _, _ => none
  | b :: bs, acc, mult, fuel + 1 =>
      if b < 128 then some (acc + b * mult, bs)
      else decode_rl_aux bs (acc + (b - 128) * mult) (mult * 128) fuel

/-- Modelled from the spec: decode the MQTT variable-length remaining
length from the head of a byte slice, returning the value and the rest of
the slice; fails on truncated input or on encodings longer than 4
bytes. -/
def decode_remaining_length (bs : List Nat) : Option (Nat × List Nat) :=
  decode_rl_aux bs 0 1 4

/-- Two big-endian bytes from the head of a slice. -/
def read_u16 : List Nat → Option (Nat × List Nat)
  | b1 :: b2 :: rest => some (b1 * 256 + b2, rest)
  | _ => none

/-- Fields of a PUBLISH control packet as seen by the engine. -/
structure mqtt_publish_fields where
  topic : List Nat
  payload : List Nat
  qos : Nat
  packet_id : Nat
  dup : Nat
  retain : Nat
deriving DecidableEq, Repr

/-- Modelled from the spec: serialize a PUBLISH packet per MQTT 3.1.1 —
fixed header byte `0x30 | dup<<3 | qos<<1 | retain`, remaining length,
length-prefixed topic, packet identifier when QoS > 0, then the
payload. -/
def encode_publish (topic payload : List Nat) (qos pid dup retain : Nat) : Option (List Nat) :=
  if 2 < qos then none
  else
    let varhdr := u16_be topic.length ++ topic ++ (if qos = 0 then [] else u16_be pid)
    let body := varhdr ++ payload
    match encode_remaining_length body.length with
    | none => none
    | some rl => some ((48 + dup % 2 * 8 + qos * 2 + retain % 2) :: rl ++ body)

/-- Modelled from the spec: parse a PUBLISH packet from a byte slice;
fails cleanly on any malformed or truncated input and requires the
remaining length to delimit exactly the supplied slice. -/
def decode_publish (bs : List Nat) : Option mqtt_publish_fields :=
  match bs with
  | [] => none
  | h :: rest =>
      if h / 16 = 3 then
        let dup := h / 8 % 2
        let qos := h / 2 % 4
        let retain := h % 2
        if qos ≤ 2 then
          match decode_remaining_length rest with
          | none => none
          | some rl =>
              if rl.2.length = rl.1 then
                match read_u16 rl.2 with
                | none => none
                | some t =>
                    if t.1 ≤ t.2.length then
                      let topic := t.2.take t.1
                      let rest4 := t.2.drop t.1
                      if qos = 0 then
                        some { topic := topic, payload := rest4, qos := 0,
                               packet_id := 0, dup := dup, retain := retain }
                      else
                        match read_u16 rest4 with
                        | none => none
                        | some p =>
                            some { topic := topic, payload := p.2, qos := qos,
                                   packet_id := p.1, dup := dup, retain := retain }
                    else none
              else none
        else none
      else none

/-- Acknowledgement packet types that carry a packet identifier and are
routed to the Request Pool by identifier lookup. -/
def is_ack_with_id : mqtt_packet_type → Bool
  | .PUBACK => true
  | .PUBREC => true
  | .PUBREL => true
  | .PUBCOMP => true
  | .SUBACK => true
  | .UNSUBACK => true
  | _ => false

/-- An observation made by an outbound QoS1 publish while it waits for
its acknowledgement: an inbound acknowledgement packet routed by
identifier, or a clock tick. -/
inductive qos1_msg where
  | pkt (t : mqtt_packet_type) (pid : Nat)
  | tick (now : Nat)
deriving DecidableEq, Repr

/-- Resolution state of one outbound QoS1 publish. -/
inductive qos1_state where
  | waiting
  | success
  | timed_out
  | proto_error
deriving DecidableEq, Repr

/-- An observation that resolves a waiting QoS1 publish with identifier
`pid` and timeout window starting at `start`: an acknowledgement packet
carrying exactly that identifier, or a tick at or past the deadline. -/
def qos1_relevant (pid start : Nat) (m : qos1_msg) : Bool :=
  match m with
  | .pkt t p => p == pid && is_ack_with_id t
  | .tick now => decide (mqtt_request_timeout ≤ now - start)

/-- Modelled from the spec: one observation of a QoS1 publish.  A PUBACK
with the exact identifier resolves success; any other acknowledgement
packet type addressed to that identifier is a protocol error; a tick
past the deadline times the request out; anything else leaves it
waiting.  Resolved states absorb further observations. -/
def qos1_step (pid start : Nat) (st : qos1_state) (m : qos1_msg) : qos1_state :=
  match st with
  | .waiting =>
      if qos1_relevant pid start m then
        match m with
        | .pkt t _ => if t = .PUBACK then .success else .proto_error
        | .tick _ => .timed_out
      else .waiting
  | s => s

/-- Feed a list of observations through one QoS1 publish. -/
def qos1_run (pid start : Nat) (st : qos1_state) (msgs : List qos1_msg) : qos1_state :=
  msgs.foldl (qos1_step pid start) st

/-- Modelled from the spec: the MQTT client session object — connection
state, the Request Pool, the keep-alive configuration and timer state,
whether the session had been accepted by CONNACK, and the opaque user
argument.  Times are in milliseconds, `keep_alive` in seconds. -/
structure mqtt_client where
  conn_state : esp_mqtt_state_t
  pool : mqtt_pool
  keep_alive : Nat
  last_sent_time : Nat
  ping_deadline : Option Nat
  is_accepted : Bool
  arg : Nat
deriving DecidableEq, Repr

/-- Modelled from the spec: `esp_mqtt_client_is_connected` reports the
gate of §4.2 — whether the state machine is in `ESP_MQTT_CONNECTED`, the
only state in which publish/subscribe/unsubscribe are admitted. -/
def esp_mqtt_client_is_connected (client : mqtt_client) : Nat :=
  if client.conn_state = .ESP_MQTT_CONNECTED then 1 else 0

/-- Modelled from the spec: `esp_mqtt_client_connect` is only valid from
the disconnected state — a second outstanding connect attempt is refused
synchronously; otherwise the transport is opened and the client moves to
`ESP_MQTT_CONN_CONNECTING`. -/
def esp_mqtt_client_connect (client : mqtt_client) (keep_alive_s : Nat) : espr_t × mqtt_client :=
  if client.conn_state = .ESP_MQTT_CONN_DISCONNECTED then
    (.espOK, { client with conn_state := .ESP_MQTT_CONN_CONNECTING, keep_alive := keep_alive_s })
  else (.espERR, client)

/-- Modelled from the spec: `esp_mqtt_client_subscribe` — admitted only
in `ESP_MQTT_CONNECTED` (not-connected error otherwise, nothing queued);
when admitted it allocates a request and sends SUBSCRIBE. -/
def esp_mqtt_client_subscribe (client : mqtt_client) (topic : List Nat) (arg now : Nat) :
    espr_t × mqtt_client :=
  if client.conn_state = .ESP_MQTT_CONNECTED then
    match request_create client.pool (topic.length + 7) arg now with
    | none => (.espERRMEM, client)
    | some p => (.espOK, { client with pool := p.2 })
  else (.espCLOSED, client)

/-- Modelled from the spec: `esp_mqtt_client_unsubscribe` — admitted only
in `ESP_MQTT_CONNECTED` (not-connected error otherwise, nothing
queued). -/
def esp_mqtt_client_unsubscribe (client : mqtt_client) (topic : List Nat) (arg now : Nat) :
    espr_t × mqtt_client :=
  if client.conn_state = .ESP_MQTT_CONNECTED then
    match request_create client.pool (topic.length + 4) arg now with
    | none => (.espERRMEM, client)
    | some p => (.espOK, { client with pool := p.2 })
  else (.espCLOSED, client)

/-- Modelled from the spec and the header: `esp_mqtt_client_publish` —
admitted only in `ESP_MQTT_CONNECTED` (not-connected error otherwise,
nothing queued).  For QoS 1 and 2 a request slot and packet identifier
are allocated and the publish event fires later, when the matching
acknowledgement arrives.  For QoS 0 no pooled resource and no identifier
are needed, so nothing tracks the packet after it is handed to the
transport; the header note at `ESP_MQTT_EVT_PUBLISH` states the publish
event may not be received for `ESP_MQTT_QOS_AT_MOST_ONCE` even when the
packet was successfully sent, which this models as composed from: no
request entry, hence no event source.  The third component lists the
events fired during the call itself. -/
def esp_mqtt_client_publish (client : mqtt_client) (topic payload : List Nat)
    (qos : esp_mqtt_qos_t) (arg now : Nat) : espr_t × mqtt_client × List mqtt_evt :=
  if client.conn_state = .ESP_MQTT_CONNECTED then
    match qos with
    | .ESP_MQTT_QOS_AT_MOST_ONCE => (.espOK, client, [])
    | _ =>
        match request_create client.pool (topic.length + payload.length + 9) arg now with
        | none => (.espERRMEM, client, [])
        | some p => (.espOK, { client with pool := p.2 }, [])
  else (.espCLOSED, client, [])

/-- First in-use entry not yet pending becomes pending: its bytes are now
confirmed on the transport and it is eligible for acknowledgement
matching. -/
def mark_first_unsent : List esp_mqtt_request_t → List esp_mqtt_request_t
  | [] => []
  | r :: rs =>
      if request_is_in_use r && !request_is_pending r then request_set_pending r :: rs
      else r :: mark_first_unsent rs

/-- Modelled from the spec and the header: the transport's bytes-sent
confirmation.  Publish events are produced from Request Pool entries
when their acknowledgement arrives; the send confirmation itself only
updates pool bookkeeping, so a QoS0 publish — which holds no pool entry —
yields no event here (per the header note on `ESP_MQTT_EVT_PUBLISH`). -/
def mqtt_data_sent (client : mqtt_client) : mqtt_client × List mqtt_evt :=
  ({ client with pool := { client.pool with requests := mark_first_unsent client.pool.requests } },
   [])

/-- Modelled from the spec: an inbound PUBACK — the in-use request with
that identifier resolves with a success publish event and is
released. -/
def mqtt_puback_recv (client : mqtt_client) (pid : Nat) : mqtt_client × List mqtt_evt :=
  match client.pool.requests.find? (fun r => request_is_in_use r && r.packet_id == pid) with
  | none => (client, [])
  | some r =>
      ({ client with pool := request_delete client.pool pid },
       [mqtt_evt.evt_publish r.arg espr_t.espOK])

/-- Modelled from the spec: flushing the Request Pool on abrupt
disconnect — every in-use request resolves with a connection-lost
result. -/
def pool_flush (pool : mqtt_pool) : mqtt_pool × List mqtt_evt :=
  ({ pool with requests := pool.requests.map request_reset },
   (pool.requests.filter (fun r => request_is_in_use r)).map
     (fun r => mqtt_evt.evt_publish r.arg espr_t.espCLOSED))

/-- Modelled from the spec: the PINGRESP response deadline is a fraction
of the keep-alive interval — half of it here. -/
def mqtt_ping_response_window (keep_alive_s : Nat) : Nat :=
  keep_alive_s * 1000 / 2

/-- Modelled from the spec: one tick of the Keep-Alive Scheduler.  While
connected with a nonzero keep-alive: if no response deadline is armed and
the keep-alive interval has elapsed since the last transmitted packet, a
PINGREQ is sent and the response deadline armed; if the armed deadline
lapses without PINGRESP the session is torn down abruptly — the pool is
flushed and a disconnect event carrying whether the session had been
accepted fires, the state returning to disconnected.  Returns the new
client, the packets sent, and the events fired. -/
def mqtt_keep_alive_tick (client : mqtt_client) (now : Nat) :
    mqtt_client × List mqtt_packet_type × List mqtt_evt :=
  if client.conn_state = .ESP_MQTT_CONNECTED ∧ client.keep_alive ≠ 0 then
    match client.ping_deadline with
    | none =>
        if client.keep_alive * 1000 ≤ now - client.last_sent_time then
          ({ client with
               ping_deadline := some (now + mqtt_ping_response_window client.keep_alive),
               last_sent_time := now },
           [.PINGREQ], [])
        else (client, [], [])
    | some dl =>
        if dl ≤ now then
          ({ client with
               conn_state := .ESP_MQTT_CONN_DISCONNECTED,
               ping_deadline := none,
               pool := (pool_flush client.pool).1 },
           [], (pool_flush client.pool).2 ++ [mqtt_evt.evt_disconnect client.is_accepted])
        else (client, [], [])
  else (client, [], [])

/-- Modelled from the spec: PINGRESP receipt fires a keep-alive event and
disarms the response deadline. -/
def mqtt_pingresp_recv (client : mqtt_client) : mqtt_client × List mqtt_evt :=
  match client.ping_deadline with
  | none => (client, [])
  | some _ => ({ client with ping_deadline := none }, [mqtt_evt.evt_keep_alive])

/-- A pool with every slot occupied: packet identifiers 1 to 8. -/
def full_pool : mqtt_pool :=
  { requests := (List.range ESP_CFG_MQTT_MAX_REQUESTS).map
      (fun i => { status := 1, packet_id := i + 1, arg := i,
                  expected_sent_len := 10, timeout_start_time := 0 }),
    last_packet_id := 8 }

/-- A fully connected client whose pool has no free slot. -/
def connected_full_client : mqtt_client :=
  { conn_state := .ESP_MQTT_CONNECTED, pool := full_pool, keep_alive := 60,
    last_sent_time := 0, ping_deadline := none, is_accepted := true, arg := 0 }

/-- A client mid-handshake: CONNECT sent, CONNACK not yet accepted. -/
def mqtt_connecting_client : mqtt_client :=
  { conn_state := .ESP_MQTT_CONNECTING, pool := mqtt_pool_init, keep_alive := 60,
    last_sent_time := 0, ping_deadline := none, is_accepted := false, arg := 0 }

/-- A freshly connected client with `keep_alive = 5` seconds, nothing
transmitted since time 0, no ping outstanding. -/
def keep_alive_client : mqtt_client :=
  { conn_state := .ESP_MQTT_CONNECTED, pool := mqtt_pool_init, keep_alive := 5,
    last_sent_time := 0, ping_deadline := none, is_accepted := true, arg := 0 }

/-- The Request Pool invariant of the data model: the table keeps its
fixed capacity, the packet identifiers of the in-use entries are pairwise
distinct, and each is a nonzero 16-bit value. -/
def pool_inv (pool : mqtt_pool) : Prop :=
  pool.requests.length = ESP_CFG_MQTT_MAX_REQUESTS ∧
  (ids_in_use pool.requests).Nodup ∧
  ((ids_in_use pool.requests).all fun id => decide (0 < id) && decide (id < 65536)) = true

/-- The scan of `tick(now)` frees exactly the expired entries and emits
one timeout event per expired entry, in table order. -/
theorem mqtt_tick_scan_eq (now : Nat) (rs : List esp_mqtt_request_t) :
    mqtt_tick_scan now rs =
      (rs.map (fun r => if request_expired now r then request_reset r else r),
       (rs.filter (fun r => request_expired now r)).map
         (fun r => mqtt_evt.evt_publish r.arg espr_t.espTIMEOUT)) := by
  induction rs with
  | nil => rfl
  | cons r rs ih =>
      by_cases h : request_expired now r <;>
        simp [mqtt_tick_scan, ih, h, List.filter_cons]

/-- C3: for every pool state and time `now`, `tick(now)` releases exactly
the in-use requests whose elapsed time `now - timeout_start_time` has
reached the fixed timeout — each released entry is no longer in use and a
timeout result is reported for it through the Event Dispatcher — and
every other entry is left untouched. -/
theorem mqtt_tick_releases_exactly (pool : mqtt_pool) (now : Nat) :
    (mqtt_tick pool now).1.requests =
      pool.requests.map (fun r => if request_expired now r then request_reset r else r) ∧
    (mqtt_tick pool now).2 =
      (pool.requests.filter (fun r => request_expired now r)).map
        (fun r => mqtt_evt.evt_publish r.arg espr_t.espTIMEOUT) ∧
    (∀ r, request_is_in_use (request_reset r) = false) ∧
    (∀ r, request_expired now r =
      (request_is_in_use r && decide (mqtt_request_timeout ≤ now - r.timeout_start_time))) := by
  refine ⟨?_, ?_, fun r => rfl, fun r => rfl⟩ <;>
    simp [mqtt_tick, mqtt_tick_scan_eq]

/-- C2: allocating on a pool whose every slot is in use fails
synchronously and leaves the pool — every status flag, packet identifier,
user argument, expected send length and timeout start time — exactly as
it was. -/
theorem request_create_full_pool_fails (pool : mqtt_pool) (len arg now : Nat)
    (hfull : ∀ r ∈ pool.requests, request_is_in_use r = true) :
    request_create pool len arg now = none ∧
    pool_step pool (.alloc len arg now) = pool := by
  have hidx : find_free_slot pool.requests = none := by
    have haux : ∀ rs : List esp_mqtt_request_t,
        (∀ r ∈ rs, request_is_in_use r = true) → find_free_slot rs = none := by
      intro rs
      induction rs with
      | nil => intro _; rfl
      | cons r rs ih =>
          intro h
          have hr := h r (by simp)
          simp [find_free_slot, hr, ih fun x hx => h x (by simp [hx])]
    exact haux _ hfull
  constructor
  · simp [request_create, hidx]
  · simp [pool_step, request_create, hidx]

/-- Witness for C2 at a concrete fully occupied pool. -/
theorem request_create_full_pool_fails_witness :
    request_create full_pool 3 4 5 = none ∧
    pool_step full_pool (.alloc 3 4 5) = full_pool :=
  request_create_full_pool_fails full_pool 3 4 5 (by decide)

/-- C7: encoding a PUBLISH with topic `a/b` (bytes 97, 47, 98), payload
`hi` (bytes 104, 105) and QoS1 through the Packet Codec and decoding the
resulting byte sequence reproduces the original topic, payload and QoS
exactly. -/
theorem publish_encode_decode_roundtrip :
    (encode_publish [97, 47, 98] [104, 105] 1 1 0 0).bind decode_publish =
      some { topic := [97, 47, 98], payload := [104, 105], qos := 1,
             packet_id := 1, dup := 0, retain := 0 } := by
  decide

/-- C9: with `keep_alive = 5`, a tick after 5 idle seconds emits PINGREQ
and arms the response deadline; a tick at that lapsed deadline with no
PINGRESP observed fires a disconnect event with `is_accepted = true` and
returns the state to disconnected. -/
theorem keep_alive_timeout_scenario :
    (mqtt_keep_alive_tick keep_alive_client 5000).2.1 = [mqtt_packet_type.PINGREQ] ∧
    (mqtt_keep_alive_tick keep_alive_client 5000).1.ping_deadline = some 7500 ∧
    (mqtt_keep_alive_tick (mqtt_keep_alive_tick keep_alive_client 5000).1 7500).2.2 =
      [mqtt_evt.evt_disconnect true] ∧
    (mqtt_keep_alive_tick (mqtt_keep_alive_tick keep_alive_client 5000).1 7500).1.conn_state =
      esp_mqtt_state_t.ESP_MQTT_CONN_DISCONNECTED := by
  decide

/-- C10: `esp_mqtt_client_is_connected` is nonzero exactly in the
`ESP_MQTT_CONNECTED` state; in particular it is 0 in each intermediate
state (TCP connecting, TCP disconnecting, and MQTT connecting), not only
when disconnected. -/
theorem is_connected_iff_mqtt_connected (client : mqtt_client) :
    (esp_mqtt_client_is_connected client ≠ 0 ↔
       client.conn_state = esp_mqtt_state_t.ESP_MQTT_CONNECTED) ∧
    (client.conn_state = esp_mqtt_state_t.ESP_MQTT_CONN_CONNECTING ∨
     client.conn_state = esp_mqtt_state_t.ESP_MQTT_CONN_DISCONNECTING ∨
     client.conn_state = esp_mqtt_state_t.ESP_MQTT_CONNECTING →
       esp_mqtt_client_is_connected client = 0) := by
  constructor
  · unfold esp_mqtt_client_is_connected
    split <;> simp_all
  · rintro (h | h | h) <;> simp [esp_mqtt_client_is_connected, h]

/-- Witness for C10 at a client stuck mid CONNECT/CONNACK handshake. -/
theorem is_connected_iff_mqtt_connected_witness :
    esp_mqtt_client_is_connected mqtt_connecting_client = 0 :=
  (is_connected_iff_mqtt_connected mqtt_connecting_client).2 (Or.inr (Or.inr rfl))

/-- A completed QoS2 exchange accepts no further packet for its
identifier. -/
theorem qos2_run_from_done (ps : List mqtt_packet_type) :
    qos2_run .done ps = if ps.isEmpty then some (.done, []) else none := by
  cases ps with
  | nil => rfl
  | cons p ps => cases p <;> simp [qos2_run, qos2_step]

/-- From the PUBREL-sent stage, only a lone PUBCOMP completes the QoS2
exchange. -/
theorem qos2_run_from_await_pubcomp (ps : List mqtt_packet_type)
    (out : List mqtt_packet_type) :
    (qos2_run .await_pubcomp ps = some (.done, out) ↔
      ps = [mqtt_packet_type.PUBCOMP] ∧ out = []) := by
  cases ps with
  | nil => simp [qos2_run]
  | cons p ps =>
      cases p <;> simp [qos2_run, qos2_step, qos2_run_from_done]
      cases ps <;> simp_all [List.isEmpty]

/-- C4: an outbound QoS2 publish completes only through the strict order
PUBREC then PUBCOMP (the engine sending PUBREL between them, after
PUBLISH): the only inbound trace reaching completion is
`[PUBREC, PUBCOMP]` with `[PUBREL]` sent; an inbound PUBCOMP before
PUBREC is a protocol error (`none`, session teardown), never completion;
and every packet type not matching the pending stage errors. -/
theorem qos2_strict_handshake_order :
    (∀ ps out, qos2_run .await_pubrec ps = some (.done, out) ↔
       (ps = [mqtt_packet_type.PUBREC, mqtt_packet_type.PUBCOMP] ∧
        out = [mqtt_packet_type.PUBREL])) ∧
    qos2_step .await_pubrec .PUBCOMP = none ∧
    (∀ p, qos2_step .await_pubrec p =
       if p = mqtt_packet_type.PUBREC then some (.await_pubcomp, [.PUBREL]) else none) ∧
    (∀ p, qos2_step .await_pubcomp p =
       if p = mqtt_packet_type.PUBCOMP then some (.done, []) else none) := by
  refine ⟨?_, rfl, ?_, ?_⟩
  · intro ps out
    cases ps with
    | nil => simp [qos2_run]
    | cons p ps =>
        cases p
        case PUBREC =>
          simp only [qos2_run, qos2_step]
          constructor
          · intro hx
            rcases h : qos2_run qos2_stage.await_pubcomp ps with _ | ⟨st, o⟩
            · rw [h] at hx; exact absurd hx (by simp)
            · rw [h] at hx
              simp only [Option.some.injEq, Prod.mk.injEq] at hx
              obtain ⟨h1, h2⟩ := hx
              subst h1
              have hb := (qos2_run_from_await_pubcomp ps o).mp h
              refine ⟨by rw [hb.1], ?_⟩
              rw [← h2, hb.2]; rfl
          · rintro ⟨hps, hout⟩
            have hps2 : ps = [mqtt_packet_type.PUBCOMP] := by injection hps
            subst hps2; subst hout
            simp [qos2_run, qos2_step]
        all_goals simp [qos2_run, qos2_step]
  · intro p; cases p <;> rfl
  · intro p; cases p <;> rfl

/-- Unfolding of the in-use identifier list over a cons cell. -/
theorem ids_in_use_cons (r : esp_mqtt_request_t) (rs : List esp_mqtt_request_t) :
    ids_in_use (r :: rs) =
      if request_is_in_use r then r.packet_id :: ids_in_use rs else ids_in_use rs := by
  by_cases h : request_is_in_use r <;> simp [ids_in_use, List.filter_cons, h]

/-- The successor function of the packet-id counter stays in the nonzero
16-bit range. -/
theorem next_packet_id_range (i : Nat) :
    0 < next_packet_id i ∧ next_packet_id i < 65536 := by
  unfold next_packet_id
  split <;> omega

/-- A successful probe returns a nonzero 16-bit identifier not currently
in use. -/
theorem probe_packet_id_spec (rs : List esp_mqtt_request_t) :
    ∀ (fuel cand pid : Nat), 0 < cand → cand < 65536 →
      probe_packet_id rs cand fuel = some pid →
      pid ∉ ids_in_use rs ∧ 0 < pid ∧ pid < 65536 := by
  intro fuel
  induction fuel with
  | zero => intro cand pid _ _ h; exact absurd h (by simp [probe_packet_id])
  | succ n ih =>
      intro cand pid h1 h2 h
      simp only [probe_packet_id] at h
      by_cases hin : cand ∈ ids_in_use rs
      · rw [if_pos hin] at h
        exact ih _ pid (next_packet_id_range cand).1 (next_packet_id_range cand).2 h
      · rw [if_neg hin] at h
        injection h with h
        subst h
        exact ⟨hin, h1, h2⟩

/-- A successful identifier allocation returns a nonzero 16-bit
identifier that no in-use request carries. -/
theorem create_packet_id_spec (pool : mqtt_pool) (pid : Nat)
    (h : create_packet_id pool = some pid) :
    pid ∉ ids_in_use pool.requests ∧ 0 < pid ∧ pid < 65536 :=
  probe_packet_id_spec pool.requests 65536 _ pid
    (next_packet_id_range pool.last_packet_id).1
    (next_packet_id_range pool.last_packet_id).2 h

/-- A successful free-slot search returns the index of a slot that is
not in use. -/
theorem find_free_slot_spec :
    ∀ (rs : List esp_mqtt_request_t) (i : Nat), find_free_slot rs = some i →
      ∃ h : i < rs.length, request_is_in_use (rs.get ⟨i, h⟩) = false := by
  intro rs
  induction rs with
  | nil => intro i h; exact absurd h (by simp [find_free_slot])
  | cons r rs ih =>
      intro i h
      cases hr : request_is_in_use r with
      | true =>
          simp only [find_free_slot, hr, if_true, Option.map_eq_some'] at h
          obtain ⟨j, hj, hji⟩ := h
          obtain ⟨hlt, hfree⟩ := ih j hj
          subst hji
          exact ⟨Nat.succ_lt_succ hlt, hfree⟩
      | false =>
          simp only [find_free_slot, hr] at h
          injection h with h
          subst h
          exact ⟨by simp, hr⟩

/-- Writing a fresh in-use entry into a free slot splits the in-use
identifier list around the new identifier. -/
theorem ids_in_use_set_free :
    ∀ (rs : List esp_mqtt_request_t) (i : Nat) (r2 : esp_mqtt_request_t)
      (h : i < rs.length), request_is_in_use (rs.get ⟨i, h⟩) = false →
      request_is_in_use r2 = true →
      ∃ l1 l2, ids_in_use rs = l1 ++ l2 ∧
        ids_in_use (rs.set i r2) = l1 ++ r2.packet_id :: l2 := by
  intro rs
  induction rs with
  | nil => intro i r2 h; exact absurd h (by simp)
  | cons x xs ih =>
      intro i r2 h hfree hin2
      cases i with
      | zero =>
          have hfx : request_is_in_use x = false := hfree
          refine ⟨[], ids_in_use xs, ?_, ?_⟩
          · simp [ids_in_use_cons, hfx]
          · simp [List.set, ids_in_use_cons, hin2]
      | succ j =>
          have h2 : j < xs.length := by simpa using h
          have hfree2 : request_is_in_use (xs.get ⟨j, h2⟩) = false := hfree
          obtain ⟨l1, l2, e1, e2⟩ := ih j r2 h2 hfree2 hin2
          cases hx : request_is_in_use x with
          | true =>
              refine ⟨x.packet_id :: l1, l2, ?_, ?_⟩
              · simp [ids_in_use_cons, hx, e1]
              · simp [List.set, ids_in_use_cons, hx, e2]
          | false =>
              refine ⟨l1, l2, ?_, ?_⟩
              · simp [ids_in_use_cons, hx, e1]
              · simp [List.set, ids_in_use_cons, hx, e2]

/-- Releasing entries only removes identifiers from the in-use list. -/
theorem ids_in_use_release_sublist (rs : List esp_mqtt_request_t) (pid : Nat) :
    (ids_in_use (rs.map (fun r =>
        if request_is_in_use r && r.packet_id == pid then request_reset r else r))).Sublist
      (ids_in_use rs) := by
  induction rs with
  | nil => simp [ids_in_use]
  | cons x xs ih =>
      rw [List.map_cons]
      cases hx : request_is_in_use x with
      | false =>
          have hhead : (if (false && x.packet_id == pid) = true
              then request_reset x else x) = x := by simp
          have hxn : ¬ (request_is_in_use x = true) := by simp [hx]
          rw [hhead, ids_in_use_cons, ids_in_use_cons, if_neg hxn, if_neg hxn]
          exact ih
      | true =>
          cases hpid : x.packet_id == pid with
          | true =>
              have hhead : (if (true && true) = true
                  then request_reset x else x) = request_reset x := by simp
              have hrn : ¬ (request_is_in_use (request_reset x) = true) := by
                simp [request_reset, request_is_in_use]
              rw [hhead, ids_in_use_cons, ids_in_use_cons, if_neg hrn, if_pos hx]
              exact List.Sublist.cons _ ih
          | false =>
              have hhead : (if (true && false) = true
                  then request_reset x else x) = x := by simp
              rw [hhead, ids_in_use_cons, ids_in_use_cons, if_pos hx, if_pos hx]
              exact List.Sublist.cons₂ _ ih

/-- The fresh pool satisfies the Request Pool invariant. -/
theorem pool_inv_init : pool_inv mqtt_pool_init := by
  refine ⟨rfl, ?_, rfl⟩
  decide

/-- Each allocate or release call preserves the Request Pool
invariant. -/
theorem pool_step_preserves_inv (pool : mqtt_pool) (op : pool_op)
    (h : pool_inv pool) : pool_inv (pool_step pool op) := by
  obtain ⟨hlen, hnd, hall⟩ := h
  cases op with
  | release pid =>
      refine ⟨?_, ?_, ?_⟩
      · simpa [pool_step, request_delete] using hlen
      · exact (ids_in_use_release_sublist _ pid).nodup hnd
      · rw [List.all_eq_true] at hall ⊢
        intro x hx
        exact hall x ((ids_in_use_release_sublist _ pid).subset hx)
  | alloc len arg now =>
      simp only [pool_step]
      cases hc : request_create pool len arg now with
      | none => exact ⟨hlen, hnd, hall⟩
      | some p =>
          unfold request_create at hc
          cases hf : find_free_slot pool.requests with
          | none => rw [hf] at hc; exact absurd hc (by simp)
          | some i =>
              rw [hf] at hc
              cases hp : create_packet_id pool with
              | none => rw [hp] at hc; exact absurd hc (by simp)
              | some pid =>
                  rw [hp] at hc
                  injection hc with hc
                  subst hc
                  obtain ⟨hlt, hfree⟩ := find_free_slot_spec pool.requests i hf
                  obtain ⟨hnotin, hpos, hlt16⟩ := create_packet_id_spec pool pid hp
                  obtain ⟨l1, l2, e1, e2⟩ :=
                    ids_in_use_set_free pool.requests i (mk_request pid arg len now)
                      hlt hfree rfl
                  rw [e1] at hnotin hnd
                  refine ⟨?_, ?_, ?_⟩
                  · simpa [List.length_set] using hlen
                  · show (ids_in_use (pool.requests.set i (mk_request pid arg len now))).Nodup
                    rw [e2, List.nodup_middle, List.nodup_cons]
                    exact ⟨by simpa [mk_request] using hnotin, hnd⟩
                  · rw [List.all_eq_true] at hall ⊢
                    intro x hx
                    rw [e2] at hx
                    rcases List.mem_append.mp hx with h1 | h2
                    · exact hall x (by rw [e1]; exact List.mem_append.mpr (Or.inl h1))
                    · rcases List.mem_cons.mp h2 with rfl | h3
                      · simp [mk_request, hpos, hlt16]
                      · exact hall x (by rw [e1]; exact List.mem_append.mpr (Or.inr h3))

/-- Any sequence of pool calls preserves the invariant. -/
theorem pool_run_preserves_inv (pool : mqtt_pool) (ops : List pool_op)
    (h : pool_inv pool) : pool_inv (pool_run pool ops) := by
  induction ops generalizing pool with
  | nil => simpa [pool_run] using h
  | cons op ops ih =>
      simp only [pool_run, List.foldl_cons]
      exact ih (pool_step pool op) (pool_step_preserves_inv pool op h)

/-- C1: for every sequence of allocate and release calls starting from
the fresh Request Pool, at every point at most
`ESP_CFG_MQTT_MAX_REQUESTS` (8) requests are simultaneously in use, no
two in-use requests carry the same packet identifier, and every in-use
identifier is nonzero and fits in 16 bits. -/
theorem pool_run_bounded_and_unique (ops : List pool_op) :
    (ids_in_use (pool_run mqtt_pool_init ops).requests).length ≤ ESP_CFG_MQTT_MAX_REQUESTS ∧
    (ids_in_use (pool_run mqtt_pool_init ops).requests).Nodup ∧
    ((ids_in_use (pool_run mqtt_pool_init ops).requests).all
      fun id => decide (0 < id) && decide (id < 65536)) = true := by
  obtain ⟨hlen, hnd, hall⟩ := pool_run_preserves_inv mqtt_pool_init ops pool_inv_init
  refine ⟨?_, hnd, hall⟩
  have hle : (ids_in_use (pool_run mqtt_pool_init ops).requests).length ≤
      (pool_run mqtt_pool_init ops).requests.length := by
    unfold ids_in_use
    rw [List.length_map]
    exact List.length_filter_le _ _
  exact hlen ▸ hle

/-- A resolved QoS1 publish absorbs all further observations. -/
theorem qos1_run_terminal (pid start : Nat) (st : qos1_state) (msgs : List qos1_msg)
    (h : st ≠ qos1_state.waiting) : qos1_run pid start st msgs = st := by
  induction msgs with
  | nil => rfl
  | cons m ms ih =>
      have hstep : qos1_step pid start st m = st := by
        cases st with
        | waiting => exact absurd rfl h
        | success => rfl
        | timed_out => rfl
        | proto_error => rfl
      simp only [qos1_run, List.foldl_cons] at ih ⊢
      rw [hstep]
      exact ih

/-- The outcome of a waiting QoS1 publish is decided by the first
relevant observation: a matching PUBACK resolves success, any other
matching acknowledgement a protocol error, a lapsed deadline a
timeout. -/
theorem qos1_run_characterization (pid start : Nat) (msgs : List qos1_msg) :
    qos1_run pid start .waiting msgs =
      match msgs.find? (qos1_relevant pid start) with
      | none => qos1_state.waiting
      | some (qos1_msg.pkt t _) =>
          if t = mqtt_packet_type.PUBACK then qos1_state.success else qos1_state.proto_error
      | some (qos1_msg.tick _) => qos1_state.timed_out := by
  induction msgs with
  | nil => rfl
  | cons m ms ih =>
      by_cases h : qos1_relevant pid start m = true
      · rw [List.find?_cons_of_pos _ h]
        simp only [qos1_run, List.foldl_cons]
        cases m with
        | pkt t p =>
            have hstep : qos1_step pid start .waiting (qos1_msg.pkt t p) =
                (if t = mqtt_packet_type.PUBACK then qos1_state.success
                 else qos1_state.proto_error) := by
              simp [qos1_step, h]
            rw [hstep]
            by_cases ht : t = mqtt_packet_type.PUBACK
            · have hterm := qos1_run_terminal pid start qos1_state.success ms (by decide)
              simp only [qos1_run] at hterm
              rw [if_pos ht, hterm]
              simp [ht]
            · have hterm := qos1_run_terminal pid start qos1_state.proto_error ms (by decide)
              simp only [qos1_run] at hterm
              rw [if_neg ht, hterm]
              simp [ht]
        | tick n =>
            have hstep : qos1_step pid start .waiting (qos1_msg.tick n) =
                qos1_state.timed_out := by
              simp [qos1_step, h]
            rw [hstep]
            have hterm := qos1_run_terminal pid start qos1_state.timed_out ms (by decide)
            simp only [qos1_run] at hterm
            rw [hterm]
      · rw [List.find?_cons_of_neg _ h]
        simp only [qos1_run, List.foldl_cons]
        have hstep : qos1_step pid start .waiting m = .waiting := by
          simp [qos1_step, h]
        rw [hstep]
        exact ih

/-- C5: a waiting QoS1 publish with identifier `pid` resolves with
success exactly when the first observation addressed to it — an
acknowledgement carrying exactly `pid`, or a lapsed deadline — is a
PUBACK; and when that first observation is any other acknowledgement
packet type for `pid`, the publish resolves as a protocol error, never as
success. -/
theorem qos1_resolves_iff_matching_puback (pid start : Nat) (msgs : List qos1_msg) :
    (qos1_run pid start .waiting msgs = qos1_state.success ↔
       msgs.find? (qos1_relevant pid start) = some (qos1_msg.pkt .PUBACK pid)) ∧
    (∀ t, is_ack_with_id t = true → t ≠ mqtt_packet_type.PUBACK →
       msgs.find? (qos1_relevant pid start) = some (qos1_msg.pkt t pid) →
       qos1_run pid start .waiting msgs = qos1_state.proto_error) := by
  constructor
  · rw [qos1_run_characterization]
    cases hf : msgs.find? (qos1_relevant pid start) with
    | none => simp
    | some m =>
        cases m with
        | pkt t p =>
            have hrel := List.find?_some hf
            have hp : p = pid := by
              simp [qos1_relevant] at hrel
              exact hrel.1
            subst hp
            by_cases ht : t = mqtt_packet_type.PUBACK
            · subst ht; simp
            · simp [ht]
        | tick n => simp
  · intro t hack hne hf
    rw [qos1_run_characterization, hf]
    simp [hne]

/-- Witness for C5: with identifier 7, an inbound PUBREC for 7 as the
first relevant observation resolves the publish as a protocol error. -/
theorem qos1_resolves_iff_matching_puback_witness :
    qos1_run 7 0 .waiting [qos1_msg.pkt .PUBREC 7] = qos1_state.proto_error :=
  (qos1_resolves_iff_matching_puback 7 0 [qos1_msg.pkt .PUBREC 7]).2
    mqtt_packet_type.PUBREC (by decide) (by decide) (by decide)

/-- C6 counterexample: publishing with QoS0 on a connected client whose
pool is fully occupied succeeds, but no event at all — in particular no
publish-sent success event — is fired, neither during the call nor when
the transport confirms the bytes sent; the header note at
`ESP_MQTT_EVT_PUBLISH` warns the event may not be received for QoS0, so
the claimed guaranteed event does not exist. -/
theorem qos0_publish_fires_no_event :
    (esp_mqtt_client_publish connected_full_client [97] [104]
        .ESP_MQTT_QOS_AT_MOST_ONCE 0 0).1 = espr_t.espOK ∧
    (esp_mqtt_client_publish connected_full_client [97] [104]
        .ESP_MQTT_QOS_AT_MOST_ONCE 0 0).2.2 = [] ∧
    (mqtt_data_sent (esp_mqtt_client_publish connected_full_client [97] [104]
        .ESP_MQTT_QOS_AT_MOST_ONCE 0 0).2.1).2 = [] := by
  decide

/-- C6 as amended: a QoS0 publish on a connected client succeeds even
with zero free pool slots, allocating no slot and no packet identifier
(the client is unchanged), but no publish event is fired either at the
call or at the bytes-sent confirmation — per the header, the publish
event is not to be relied upon for QoS0. -/
theorem qos0_publish_needs_no_slot (client : mqtt_client) (topic payload : List Nat)
    (arg now : Nat) (hconn : client.conn_state = esp_mqtt_state_t.ESP_MQTT_CONNECTED) :
    esp_mqtt_client_publish client topic payload .ESP_MQTT_QOS_AT_MOST_ONCE arg now =
      (espr_t.espOK, client, []) ∧
    (mqtt_data_sent client).2 = [] := by
  constructor
  · simp [esp_mqtt_client_publish, hconn]
  · rfl

/-- Witness for C6 at the concrete connected client with a full pool. -/
theorem qos0_publish_needs_no_slot_witness :
    esp_mqtt_client_publish connected_full_client [97] [104]
      .ESP_MQTT_QOS_AT_MOST_ONCE 0 0 = (espr_t.espOK, connected_full_client, []) ∧
    (mqtt_data_sent connected_full_client).2 = [] :=
  qos0_publish_needs_no_slot connected_full_client [97] [104] 0 0 (by rfl)

/-- C8: outside `ESP_MQTT_CONNECTED`, every publish, subscribe and
unsubscribe call returns a not-connected error synchronously with the
client — hence any queue or pool it owns — unchanged; and outside the
disconnected state, `connect` returns a state error synchronously with
the client unchanged. -/
theorem mqtt_state_gating (client : mqtt_client) (topic payload : List Nat)
    (qos : esp_mqtt_qos_t) (arg now ka : Nat) :
    (client.conn_state ≠ esp_mqtt_state_t.ESP_MQTT_CONNECTED →
       esp_mqtt_client_publish client topic payload qos arg now =
         (espr_t.espCLOSED, client, []) ∧
       esp_mqtt_client_subscribe client topic arg now = (espr_t.espCLOSED, client) ∧
       esp_mqtt_client_unsubscribe client topic arg now = (espr_t.espCLOSED, client)) ∧
    (client.conn_state ≠ esp_mqtt_state_t.ESP_MQTT_CONN_DISCONNECTED →
       esp_mqtt_client_connect client ka = (espr_t.espERR, client)) := by
  constructor
  · intro h
    refine ⟨?_, ?_, ?_⟩ <;>
      simp [esp_mqtt_client_publish, esp_mqtt_client_subscribe,
        esp_mqtt_client_unsubscribe, h]
  · intro h
    simp [esp_mqtt_client_connect, h]

/-- Witness for C8 at a client mid CONNECT/CONNACK handshake, which is
neither connected nor disconnected. -/
theorem mqtt_state_gating_witness :
    esp_mqtt_client_publish mqtt_connecting_client [97] [104]
      .ESP_MQTT_QOS_AT_LEAST_ONCE 0 0 = (espr_t.espCLOSED, mqtt_connecting_client, []) ∧
    esp_mqtt_client_subscribe mqtt_connecting_client [97] 0 0 =
      (espr_t.espCLOSED, mqtt_connecting_client) ∧
    esp_mqtt_client_unsubscribe mqtt_connecting_client [97] 0 0 =
      (espr_t.espCLOSED, mqtt_connecting_client) ∧
    esp_mqtt_client_connect mqtt_connecting_client 5 =
      (espr_t.espERR, mqtt_connecting_client) := by
  have h := mqtt_state_gating mqtt_connecting_client [97] [104]
    .ESP_MQTT_QOS_AT_LEAST_ONCE 0 0 5
  have h1 := h.1 (by decide)
  exact ⟨h1.1, h1.2.1, h1.2.2, h.2 (by decide)⟩

end EspMqtt
